import Mathlib

/-!
# Verification of the MTF record parser and normalization/assembly logic

Shallow embedding of `src/scripts/megameklab-conversion/mtf_converter.py`
(class `MTFParser` and its helpers).  Python strings are modelled as
`List Char`; Python dicts (which are insertion-ordered and overwrite on
re-assignment to an existing key) are modelled as association lists with
an in-place-update insert.  The vocabulary/normalization collaborators
imported from `enum_mappings` are external to the repository core and are
modelled as an abstract bundle of pure functions.
-/

namespace MTF

/-- Python strings, modelled as lists of characters. -/
abbrev Str := List Char

/-- The whitespace characters stripped by Python's `str.strip()` /
matched by the regex `\s` (ASCII range). -/
def pyIsSpace (c : Char) : Bool :=
  c = ' ' || c = '\t' || c = '\n' || c = '\r' || c = '\x0B' || c = '\x0C'

/-- Python `str.strip()`: drop whitespace from both ends. -/
def pyTrim (s : Str) : Str :=
  ((s.dropWhile pyIsSpace).reverse.dropWhile pyIsSpace).reverse

/-- The ASCII upper-to-lower case table. -/
def lowerTable : List (Char × Char) :=
  [('A', 'a'), ('B', 'b'), ('C', 'c'), ('D', 'd'), ('E', 'e'), ('F', 'f'),
   ('G', 'g'), ('H', 'h'), ('I', 'i'), ('J', 'j'), ('K', 'k'), ('L', 'l'),
   ('M', 'm'), ('N', 'n'), ('O', 'o'), ('P', 'p'), ('Q', 'q'), ('R', 'r'),
   ('S', 's'), ('T', 't'), ('U', 'u'), ('V', 'v'), ('W', 'w'), ('X', 'x'),
   ('Y', 'y'), ('Z', 'z')]

/-- ASCII lowercasing of one character, as Python `str.lower()` acts on
the ASCII inputs this format uses. -/
def pyLowerChar (c : Char) : Char :=
  ((lowerTable.find? (fun p => p.1 = c)).map Prod.snd).getD c

/-- ASCII uppercasing of one character, as Python `str.upper()` acts on
the ASCII inputs this format uses. -/
def pyUpperChar (c : Char) : Char :=
  if c = 'a' then 'A' else if c = 'b' then 'B' else if c = 'c' then 'C'
  else if c = 'd' then 'D' else if c = 'e' then 'E' else if c = 'f' then 'F'
  else if c = 'g' then 'G' else if c = 'h' then 'H' else if c = 'i' then 'I'
  else if c = 'j' then 'J' else if c = 'k' then 'K' else if c = 'l' then 'L'
  else if c = 'm' then 'M' else if c = 'n' then 'N' else if c = 'o' then 'O'
  else if c = 'p' then 'P' else if c = 'q' then 'Q' else if c = 'r' then 'R'
  else if c = 's' then 'S' else if c = 't' then 'T' else if c = 'u' then 'U'
  else if c = 'v' then 'V' else if c = 'w' then 'W' else if c = 'x' then 'X'
  else if c = 'y' then 'Y' else if c = 'z' then 'Z' else c

/-- Python `str.lower()`. -/
def pyLower (s : Str) : Str := s.map pyLowerChar

/-- Python `str.upper()`. -/
def pyUpper (s : Str) : Str := s.map pyUpperChar

/-- `startsWithL needle hay`: Python `hay.startswith(needle)`. -/
def startsWithL : Str → Str → Bool
  | [], _ => true
  | _ :: _, [] => false
  | a :: as, b :: bs => a = b && startsWithL as bs

/-- `containsSub needle hay`: Python `needle in hay` (substring test). -/
def containsSub (needle : Str) : Str → Bool
  | [] => startsWithL needle []
  | c :: t => startsWithL needle (c :: t) || containsSub needle t

/-- `endsWithL needle hay`: Python `hay.endswith(needle)`. -/
def endsWithL (needle hay : Str) : Bool :=
  startsWithL needle.reverse hay.reverse

/-- Fuelled worker for `replaceAll`; the fuel is the length of the
subject string, which bounds the number of steps. -/
def replaceAllGo (needle repl : Str) : Nat → Str → Str
  | _, [] => []
  | 0, s => s
  | Nat.succ n, c :: t =>
    if startsWithL needle (c :: t) && !needle.isEmpty then
      repl ++ replaceAllGo needle repl n ((c :: t).drop needle.length)
    else
      c :: replaceAllGo needle repl n t

/-- Python `s.replace(needle, repl)`: replace every non-overlapping
occurrence, scanning left to right. -/
def replaceAll (needle repl s : Str) : Str :=
  replaceAllGo needle repl s.length s

/-- Split a string at the first occurrence of `sep` (Python
`s.split(sep, 1)` when `sep` occurs); `none` when `sep` does not occur. -/
def splitFirstAux (sep : Char) : Str → Option (Str × Str)
  | [] => none
  | c :: t =>
    if c = sep then some ([], t)
    else (splitFirstAux sep t).map (fun p => (c :: p.1, p.2))

/-- Insertion-ordered dictionary update, as Python `d[k] = v`: replace the
value in place when the key is present, append otherwise. -/
def dictInsert {α : Type} (d : List (Str × α)) (k : Str) (v : α) : List (Str × α) :=
  match d with
  | [] => [(k, v)]
  | (k', v') :: t => if k' = k then (k', v) :: t else (k', v') :: dictInsert t k v

/-- Dictionary lookup, as Python `d[k]` / `k in d`. -/
def dictLookup {α : Type} (d : List (Str × α)) (k : Str) : Option α :=
  match d with
  | [] => none
  | (k', v') :: t => if k' = k then some v' else dictLookup t k

/-- Python `d.get(k, dflt)`. -/
def dictGetD {α : Type} (d : List (Str × α)) (k : Str) (dflt : α) : α :=
  (dictLookup d k).getD dflt

/-- ASCII decimal digit test, as the regex `\d` on this format's input. -/
def isDigitC (c : Char) : Bool := '0' ≤ c && c ≤ '9'

/-- Numeric value of a digit string. -/
def digitsToNat (s : Str) : Nat :=
  s.foldl (fun a c => a * 10 + (c.toNat - 48)) 0

/-- Python `int(s)`: optional sign followed by one or more digits
(surrounding whitespace allowed); `none` models `ValueError`. -/
def pyParseInt (s : Str) : Option Int :=
  match pyTrim s with
  | '-' :: ds => if !ds.isEmpty && ds.all isDigitC then some (-(digitsToNat ds : Int)) else none
  | '+' :: ds => if !ds.isEmpty && ds.all isDigitC then some (digitsToNat ds : Int) else none
  | ds => if !ds.isEmpty && ds.all isDigitC then some (digitsToNat ds : Int) else none

/-- Python `int(float(s))` for the simple decimal literals this format
carries (optional sign, digits, optional fractional part; truncation
toward zero).  Exotic float syntax (exponents, `inf`, `nan`) is not
modelled and is treated as a parse failure. -/
def pyParseMass (s : Str) : Option Int :=
  match pyTrim s with
  | '-' :: rest =>
    (match splitFirstAux '.' rest with
     | none => if !rest.isEmpty && rest.all isDigitC then some (-(digitsToNat rest : Int)) else none
     | some p =>
       if (!p.1.isEmpty || !p.2.isEmpty) && p.1.all isDigitC && p.2.all isDigitC then
         some (-(digitsToNat p.1 : Int))
       else none)
  | rest =>
    (match splitFirstAux '.' rest with
     | none => if !rest.isEmpty && rest.all isDigitC then some (digitsToNat rest : Int) else none
     | some p =>
       if (!p.1.isEmpty || !p.2.isEmpty) && p.1.all isDigitC && p.2.all isDigitC then
         some (digitsToNat p.1 : Int)
       else none)

/-- Join a list of strings with `'\n'`, as Python `'\n'.join(xs)`. -/
def joinNL : List Str → Str
  | [] => []
  | [x] => x
  | x :: y :: rest => x ++ '\n' :: joinNL (y :: rest)

/-- The dict returned by `MTFParser._parse_engine`. -/
structure EngineData where
  rating : Int
  type : Str
  deriving DecidableEq

/-- The dict returned by `MTFParser._parse_heat_sinks`. -/
structure HeatSinkData where
  count : Int
  type : Str
  deriving DecidableEq

/-- An armor-allocation value: either a plain point count or the merged
`{front: ..., rear: ...}` object built by `_build_armor_allocation`. -/
inductive ArmorValue where
  | scalar (n : Int)
  | frontRear (front rear : Int)
  deriving DecidableEq

/-- The raw intermediate record: the `data` dict built by
`MTFParser._parse_lines` and consumed by `_build_unit`.  Scalar keys that
may be absent become `Option` fields; the `era` key holds an int or a
string, as in the source. -/
structure RawData where
  chassis : Option Str := none
  model : Option Str := none
  mulId : Option Int := none
  config : Option Str := none
  techbase : Option Str := none
  era : Option (Int ⊕ Str) := none
  source : Option Str := none
  rulesLevel : Option Str := none
  role : Option Str := none
  mass : Option Int := none
  engine : Option EngineData := none
  structureType : Option Str := none
  myomer : Option Str := none
  heatSinks : Option HeatSinkData := none
  walkMp : Option Int := none
  jumpMp : Option Int := none
  armorType : Option Str := none
  quirks : List Str := []
  weapons : List (Str × Str) := []
  criticals : List (Str × List Str) := []
  armorAllocation : List (Str × Int) := []
  fluff : List (Str × Str) := []
  systemManufacturers : List (Str × Str) := []
  manufacturer : Option Str := none
  primaryFactory : Option Str := none
  deriving DecidableEq

/-- The mutable loop state of `MTFParser._parse_lines`. -/
structure PState where
  data : RawData := {}
  currentSection : Option Str := none
  sectionItems : List Str := []
  inWeapons : Bool := false
  inFluff : Bool := false
  fluffField : Option Str := none
  fluffBuffer : List Str := []
  deriving DecidableEq

/-- `SerializedEngine`. -/
structure SerializedEngine where
  type : Str
  rating : Int
  deriving DecidableEq

/-- `SerializedGyro`. -/
structure SerializedGyro where
  type : Str
  deriving DecidableEq

/-- `SerializedStructure`. -/
structure SerializedStructure where
  type : Str
  deriving DecidableEq

/-- `SerializedArmor`. -/
structure SerializedArmor where
  type : Str
  allocation : List (Str × ArmorValue)
  deriving DecidableEq

/-- `SerializedHeatSinks`. -/
structure SerializedHeatSinks where
  type : Str
  count : Int
  deriving DecidableEq

/-- `SerializedMovement`. -/
structure SerializedMovement where
  walk : Int
  jump : Int
  jumpJetType : Option Str := none
  enhancements : Option (List Str) := none
  deriving DecidableEq

/-- `SerializedEquipment`. -/
structure SerializedEquipment where
  id : Str
  location : Str
  slots : Option (List Int) := none
  isRearMounted : Option Bool := none
  linkedAmmo : Option Str := none
  deriving DecidableEq

/-- `SerializedFluff`. -/
structure SerializedFluff where
  overview : Option Str := none
  capabilities : Option Str := none
  history : Option Str := none
  deployment : Option Str := none
  variants : Option Str := none
  notableUnits : Option Str := none
  manufacturer : Option Str := none
  primaryFactory : Option Str := none
  systemManufacturer : Option (List (Str × Str)) := none
  deriving DecidableEq

/-- `SerializedUnit` (the Python field `structure` is a Lean keyword and
is rendered as `structureType`). -/
structure SerializedUnit where
  id : Str
  chassis : Str
  model : Str
  unitType : Str
  configuration : Str
  techBase : Str
  rulesLevel : Str
  era : Str
  year : Int
  tonnage : Int
  engine : SerializedEngine
  gyro : SerializedGyro
  cockpit : Str
  structureType : SerializedStructure
  armor : SerializedArmor
  heatSinks : SerializedHeatSinks
  movement : SerializedMovement
  equipment : List SerializedEquipment
  criticalSlots : List (Str × List (Option Str))
  variant : Option Str := none
  quirks : Option (List Str) := none
  fluff : Option SerializedFluff := none
  mulId : Option Int := none
  role : Option Str := none
  source : Option Str := none
  deriving DecidableEq

/-- Modelled from the spec: the external normalization collaborators
imported from `enum_mappings`, a module that is not part of the
repository core.  The spec treats them as pure lookup functions whose
contents are data, not algorithm, so they are abstracted as an arbitrary
bundle of functions. -/
structure Mappers where
  mapTechBase : Str → Str
  mapRulesLevel : Str → Str
  mapEngineType : Str → Str
  mapStructureType : Str → Str
  mapArmorType : Str → Str
  mapHeatSinkType : Str → Str
  mapMechLocation : Str → Str
  mapMechConfig : Str → Str
  mapYearToEra : Int → Str
  mapUnitType : Str → Str
  generateIdFromName : Str → Str → Str
  normalizeEquipmentId : Str → Str

/-- A concrete collaborator bundle used to instantiate theorems on
closed inputs; the core's behavior proved here does not depend on the
collaborators' contents. -/
def idMappers : Mappers where
  mapTechBase := fun s => s
  mapRulesLevel := fun s => s
  mapEngineType := fun s => s
  mapStructureType := fun s => s
  mapArmorType := fun s => s
  mapHeatSinkType := fun s => s
  mapMechLocation := fun s => s
  mapMechConfig := fun s => s
  mapYearToEra := fun _ => []
  mapUnitType := fun s => s
  generateIdFromName := fun c _ => c
  normalizeEquipmentId := fun s => s

/-- Tail matcher for the optional group `(?:\(([^)]+)\))?$` of the engine
regex: succeeds on exactly `q ++ [')']` with `q` nonempty and free of
`')'`, returning `q`. -/
def tryParenGroup (cs : Str) : Option Str :=
  match cs.reverse with
  | [] => none
  | c :: revq =>
    if c = ')' ∧ revq ≠ [] ∧ (revq.reverse).contains ')' = false then
      some revq.reverse
    else none

/-- The lazy scan of `(.*?)(?:\(([^)]+)\))?$` over the text after the
rating: the shortest prefix `mid` such that the remainder is a complete
parenthesized qualifier; `none` when the optional group is absent and the
whole text is the type. -/
def findParen : Str → Option (Str × Str)
  | [] => none
  | c :: t =>
    if c = '(' then
      match tryParenGroup t with
      | some q => some ([], q)
      | none => (findParen t).map (fun p => (c :: p.1, p.2))
    else (findParen t).map (fun p => (c :: p.1, p.2))

/-- `MTFParser._parse_engine`: match `(\d+)\s*(.*?)(?:\(([^)]+)\))?$`
against the value; on success return the rating and the stripped type
words with any parenthetical qualifier re-appended; otherwise rating 0
and the raw string as the type. -/
def parseEngine (value : Str) : EngineData :=
  let ds := value.takeWhile isDigitC
  if ds.isEmpty then { rating := 0, type := value }
  else
    let rest := (value.dropWhile isDigitC).dropWhile pyIsSpace
    match findParen rest with
    | some p => { rating := (digitsToNat ds : Int), type := pyTrim p.1 ++ '(' :: (p.2 ++ [')']) }
    | none => { rating := (digitsToNat ds : Int), type := pyTrim rest }

/-- `MTFParser._parse_heat_sinks`: match `(\d+)\s*(.*)`; the type defaults
to `Single` when the remainder is empty, and the whole parse defaults to
`{count: 10, type: Single}` when the value does not start with digits. -/
def parseHeatSinks (value : Str) : HeatSinkData :=
  let ds := value.takeWhile isDigitC
  if ds.isEmpty then { count := 10, type := "Single".data }
  else
    let rest := (value.dropWhile isDigitC).dropWhile pyIsSpace
    if rest.isEmpty then { count := (digitsToNat ds : Int), type := "Single".data }
    else { count := (digitsToNat ds : Int), type := pyTrim rest }

/-- Key normalization applied before dispatch:
`key.strip().lower().replace(' ', '_')`. -/
def pyKeyNorm (k : Str) : Str :=
  (pyLower (pyTrim k)).map (fun c => if c = ' ' then '_' else c)

/-- `MTFParser._parse_key_value`: dispatch one normalized key/value pair
into the raw record. -/
def parseKeyValue (key value : Str) (data : RawData) : RawData :=
  if key = "chassis".data then { data with chassis := some value }
  else if key = "model".data then { data with model := some value }
  else if key = "mul_id".data then
    match pyParseInt value with
    | some n => { data with mulId := some n }
    | none => data
  else if key = "config".data then { data with config := some value }
  else if key = "techbase".data then { data with techbase := some value }
  else if key = "era".data then
    match pyParseInt value with
    | some n => { data with era := some (Sum.inl n) }
    | none => { data with era := some (Sum.inr value) }
  else if key = "source".data then { data with source := some value }
  else if key = "rules_level".data then { data with rulesLevel := some value }
  else if key = "role".data then { data with role := some value }
  else if key = "mass".data then { data with mass := some ((pyParseMass value).getD 0) }
  else if key = "engine".data then { data with engine := some (parseEngine value) }
  else if key = "structure".data then { data with structureType := some value }
  else if key = "myomer".data then { data with myomer := some value }
  else if key = "heat_sinks".data then { data with heatSinks := some (parseHeatSinks value) }
  else if key = "walk_mp".data then { data with walkMp := some ((pyParseInt value).getD 0) }
  else if key = "jump_mp".data then { data with jumpMp := some ((pyParseInt value).getD 0) }
  else if key = "armor".data then { data with armorType := some value }
  else if endsWithL "_armor".data key || endsWithL "armor".data key then
    let locKey := pyUpper (pyTrim (replaceAll "armor".data [] (replaceAll "_armor".data [] key)))
    match pyParseInt value with
    | some n => { data with armorAllocation := dictInsert data.armorAllocation locKey n }
    | none => data
  else if key = "quirk".data then { data with quirks := data.quirks ++ [value] }
  else if key = "manufacturer".data then { data with manufacturer := some value }
  else if key = "primaryfactory".data then { data with primaryFactory := some value }
  else if key = "systemmanufacturer".data then
    match splitFirstAux ':' value with
    | some p =>
      { data with systemManufacturers := dictInsert data.systemManufacturers (pyTrim p.1) (pyTrim p.2) }
    | none => data
  else data

/-- `MTFParser.MECH_LOCATIONS`. -/
def MECH_LOCATIONS : List Str :=
  ["Head".data, "Center Torso".data, "Left Torso".data, "Right Torso".data,
   "Left Arm".data, "Right Arm".data, "Left Leg".data, "Right Leg".data]

/-- The `fluff_fields` list of `_parse_lines`. -/
def fluffFields : List Str :=
  ["overview".data, "capabilities".data, "deployment".data, "history".data,
   "variants".data, "notable_pilots".data, "notes".data]

/-- Blank or comment test of the scanner: empty stripped line or a line
starting with `#`. -/
def isBlankOrComment (lc : Str) : Bool :=
  match lc with
  | [] => true
  | c :: _ => c = '#'

/-- The fluff-header scan: the first narrative field name `f` (scanning
`fluff_fields` in order) such that the lowered line starts with `f:`. -/
def findFluffField (lc : Str) : Option Str :=
  fluffFields.find? (fun f => startsWithL (f ++ [':']) (pyLower lc))

/-- The section-header shape test: the line ends with `:` and contains no
other `:` before that position. -/
def endsColonNoOther (lc : Str) : Bool :=
  match lc.reverse with
  | ':' :: revInit => !(revInit.contains ':')
  | _ => false

/-- The section-name test of the scanner:
`section_name in MECH_LOCATIONS or section_name in ['Head', 'Center Torso']`. -/
def isRecognizedSection (name : Str) : Bool :=
  MECH_LOCATIONS.contains name || ["Head".data, "Center Torso".data].contains name

/-- Flushing an in-progress fluff buffer into the record:
`data['fluff'][current_fluff_field] = '\n'.join(fluff_buffer).strip()`.
(The scanner only flushes while `in_fluff` holds, in which case a field
name is always current; the impossible `none` case is the identity.) -/
def flushFluffData (data : RawData) (field : Option Str) (buffer : List Str) : RawData :=
  match field with
  | some f => { data with fluff := dictInsert data.fluff f (pyTrim (joinNL buffer)) }
  | none => data

/-- Flushing the current section's accumulated lines:
`if current_section and current_section_items: data['criticals'][...] = ...`
— an empty item list is never stored. -/
def flushSectionData (data : RawData) (sec : Option Str) (items : List Str) : RawData :=
  match sec with
  | some s => if items.isEmpty then data else { data with criticals := dictInsert data.criticals s items }
  | none => data

/-- One iteration of the `for line in lines` loop of
`MTFParser._parse_lines`, faithful to the source's branch order:
blank/comment, fluff header, fluff continuation, section header (any
colon-terminated line with no other colon is consumed here), weapons
header, weapons line, key:value dispatch, section content line. -/
def processLine (st : PState) (line : Str) : PState :=
  let lc := pyTrim line
  if isBlankOrComment lc then
    if st.inFluff && !st.fluffBuffer.isEmpty then
      { st with data := flushFluffData st.data st.fluffField st.fluffBuffer,
                fluffBuffer := [], inFluff := false, fluffField := none }
    else st
  else
    match findFluffField lc with
    | some field =>
      let data1 := if st.inFluff && !st.fluffBuffer.isEmpty then
          flushFluffData st.data st.fluffField st.fluffBuffer
        else st.data
      { st with data := data1, fluffField := some field,
                fluffBuffer := [pyTrim (lc.drop (field.length + 1))], inFluff := true }
    | none =>
      if st.inFluff then { st with fluffBuffer := st.fluffBuffer ++ [lc] }
      else if endsColonNoOther lc then
        let st1 : PState :=
          { st with data := flushSectionData st.data st.currentSection st.sectionItems }
        if isRecognizedSection lc.dropLast then
          { st1 with currentSection := some lc.dropLast, sectionItems := [], inWeapons := false }
        else st1
      else if startsWithL "weapons:".data (pyLower lc) then
        { st with inWeapons := true,
                  data := flushSectionData st.data st.currentSection st.sectionItems,
                  currentSection := none, sectionItems := [] }
      else if st.inWeapons then
        match splitFirstAux ',' lc with
        | some p =>
          { st with data := { st.data with weapons := st.data.weapons ++ [(pyTrim p.1, pyTrim p.2)] } }
        | none => st
      else
        match splitFirstAux ':' lc with
        | some p => { st with data := parseKeyValue (pyKeyNorm p.1) (pyTrim p.2) st.data }
        | none =>
          match st.currentSection with
          | some _ => { st with sectionItems := st.sectionItems ++ [lc] }
          | none => st

/-- The end-of-stream flushes of `_parse_lines`: save the last open
section, then the last open fluff buffer. -/
def finishParse (st : PState) : RawData :=
  let d1 := flushSectionData st.data st.currentSection st.sectionItems
  if st.inFluff && !st.fluffBuffer.isEmpty then flushFluffData d1 st.fluffField st.fluffBuffer
  else d1

/-- The scanning pass of `MTFParser._parse_lines`: fold the loop body
over the lines from a fresh state and apply the final flushes.  The
concluding `_build_unit` call is modelled separately by `buildUnit`. -/
def parseLines (lines : List Str) : RawData :=
  finishParse (lines.foldl processLine {})

/-- The `loc_map` table of `_build_armor_allocation`, applied with
identity fallback (`loc_map.get(key, key)`). -/
def armorLocMap (k : Str) : Str :=
  dictGetD
    [("LA".data, "LEFT_ARM".data), ("RA".data, "RIGHT_ARM".data),
     ("LT".data, "LEFT_TORSO".data), ("RT".data, "RIGHT_TORSO".data),
     ("CT".data, "CENTER_TORSO".data), ("HD".data, "HEAD".data),
     ("LL".data, "LEFT_LEG".data), ("RL".data, "RIGHT_LEG".data),
     ("RTL".data, "LEFT_TORSO_REAR".data), ("RTR".data, "RIGHT_TORSO_REAR".data),
     ("RTC".data, "CENTER_TORSO_REAR".data)] k k

/-- The rear-facing test of `_build_armor_allocation`:
`'REAR' in mapped_loc`. -/
def armorIsRear (loc : Str) : Bool := containsSub "REAR".data loc

/-- The front-location derivation of the second pass:
`mapped_loc.replace('_REAR', '')`. -/
def stripRearLoc (loc : Str) : Str := replaceAll "_REAR".data [] loc

/-- One step of the first pass of `_build_armor_allocation`: record every
entry whose mapped location is not a rear facing as a scalar. -/
def armorPass1Step (allocation : List (Str × ArmorValue)) (kv : Str × Int) :
    List (Str × ArmorValue) :=
  let mapped := armorLocMap kv.1
  if armorIsRear mapped then allocation
  else dictInsert allocation mapped (ArmorValue.scalar kv.2)

/-- The first pass of `_build_armor_allocation`. -/
def armorPass1 (raw : List (Str × Int)) : List (Str × ArmorValue) :=
  raw.foldl armorPass1Step []

/-- One step of the second pass of `_build_armor_allocation`: merge a
rear entry into its front location when that location currently holds a
scalar; otherwise leave the allocation unchanged. -/
def armorPass2Step (allocation : List (Str × ArmorValue)) (kv : Str × Int) :
    List (Str × ArmorValue) :=
  let mapped := armorLocMap kv.1
  if armorIsRear mapped then
    match dictLookup allocation (stripRearLoc mapped) with
    | some (ArmorValue.scalar f) =>
      dictInsert allocation (stripRearLoc mapped) (ArmorValue.frontRear f kv.2)
    | _ => allocation
  else allocation

/-- `MTFParser._build_armor_allocation`: two passes over the raw map. -/
def buildArmorAllocation (raw : List (Str × Int)) : List (Str × ArmorValue) :=
  raw.foldl armorPass2Step (armorPass1 raw)

/-- The rear-mount detection of `_build_equipment_list`:
`'(R)' in name or '(Rear)' in name.lower()`. -/
def isRearName (name : Str) : Bool :=
  containsSub "(R)".data name || containsSub "(Rear)".data (pyLower name)

/-- The name cleaning of `_build_equipment_list`:
`name.replace('(R)', '').replace('(r)', '').strip()`. -/
def cleanWeaponName (name : Str) : Str :=
  pyTrim (replaceAll "(r)".data [] (replaceAll "(R)".data [] name))

/-- `MTFParser._build_equipment_list`. -/
def buildEquipmentList (m : Mappers) (weapons : List (Str × Str)) : List SerializedEquipment :=
  weapons.map (fun w =>
    let isRear := isRearName w.1
    { id := m.normalizeEquipmentId (cleanWeaponName w.1),
      location := m.mapMechLocation w.2,
      isRearMounted := if isRear then some true else none })

/-- The `slot_counts` table of `_build_critical_slots`. -/
def slotCounts : List (Str × Nat) :=
  [("HEAD".data, 6), ("CENTER_TORSO".data, 12), ("LEFT_TORSO".data, 12),
   ("RIGHT_TORSO".data, 12), ("LEFT_ARM".data, 12), ("RIGHT_ARM".data, 12),
   ("LEFT_LEG".data, 6), ("RIGHT_LEG".data, 6),
   ("FRONT_LEFT_LEG".data, 6), ("FRONT_RIGHT_LEG".data, 6),
   ("REAR_LEFT_LEG".data, 6), ("REAR_RIGHT_LEG".data, 6)]

/-- The content-line conversion of `_build_critical_slots`:
`None` for the explicit `-Empty-` marker or an empty line, the opaque
content string otherwise. -/
def convertSlotItem (item : Str) : Option Str :=
  if item = "-Empty-".data ∨ item.isEmpty then none else some item

/-- The length normalization of `_build_critical_slots`: truncate from
the end when over capacity, pad with `None` when under. -/
def normalizeSlotList (maxSlots : Nat) (slotList : List (Option Str)) : List (Option Str) :=
  if slotList.length > maxSlots then slotList.take maxSlots
  else slotList ++ List.replicate (maxSlots - slotList.length) none

/-- One entry of the loop of `_build_critical_slots`. -/
def buildCriticalSlotsStep (m : Mappers) (slots : List (Str × List (Option Str)))
    (lc : Str × List Str) : List (Str × List (Option Str)) :=
  let mappedLocation := m.mapMechLocation lc.1
  let maxSlots := dictGetD slotCounts mappedLocation 12
  dictInsert slots mappedLocation (normalizeSlotList maxSlots (lc.2.map convertSlotItem))

/-- `MTFParser._build_critical_slots`. -/
def buildCriticalSlots (m : Mappers) (criticals : List (Str × List Str)) :
    List (Str × List (Option Str)) :=
  criticals.foldl (buildCriticalSlotsStep m) []

/-- `MTFParser._build_unit`: assemble a `SerializedUnit` from the raw
record, or `none` when the chassis is absent/default. -/
def buildUnit (m : Mappers) (data : RawData) : Option SerializedUnit :=
  let chassis := data.chassis.getD "Unknown".data
  let model := data.model.getD "Unknown".data
  if chassis = "Unknown".data then none
  else
    let year : Int :=
      match data.era with
      | some (Sum.inl n) => n
      | some (Sum.inr s) => (pyParseInt s).getD 3025
      | none => 3025
    let engineData := data.engine.getD { rating := 0, type := "Fusion".data }
    let hsData := data.heatSinks.getD { count := 10, type := "Single".data }
    let fluffData := data.fluff
    let fluff : Option SerializedFluff :=
      if fluffData.isEmpty then none
      else some
        { overview := dictLookup fluffData "overview".data,
          capabilities := dictLookup fluffData "capabilities".data,
          history := dictLookup fluffData "history".data,
          deployment := dictLookup fluffData "deployment".data,
          manufacturer := data.manufacturer,
          primaryFactory := data.primaryFactory,
          systemManufacturer :=
            if data.systemManufacturers.isEmpty then none else some data.systemManufacturers }
    some
      { id := m.generateIdFromName chassis model,
        chassis := chassis,
        model := model,
        unitType := m.mapUnitType (data.config.getD "Biped".data),
        configuration := m.mapMechConfig (data.config.getD "Biped".data),
        techBase := m.mapTechBase (data.techbase.getD "Inner Sphere".data),
        rulesLevel := m.mapRulesLevel (data.rulesLevel.getD "1".data),
        era := m.mapYearToEra year,
        year := year,
        tonnage := data.mass.getD 0,
        engine := { type := m.mapEngineType engineData.type, rating := engineData.rating },
        gyro := { type := "STANDARD".data },
        cockpit := "STANDARD".data,
        structureType := { type := m.mapStructureType (data.structureType.getD "Standard".data) },
        armor := { type := m.mapArmorType (data.armorType.getD "Standard".data),
                   allocation := buildArmorAllocation data.armorAllocation },
        heatSinks := { type := m.mapHeatSinkType hsData.type, count := hsData.count },
        movement := { walk := data.walkMp.getD 0, jump := data.jumpMp.getD 0 },
        equipment := buildEquipmentList m data.weapons,
        criticalSlots := buildCriticalSlots m data.criticals,
        quirks := if data.quirks.isEmpty then none else some data.quirks,
        fluff := fluff,
        mulId := data.mulId,
        role := data.role,
        source := data.source }

/-! ## Dictionary lemmas -/

theorem dictInsert_mem {α : Type} {d : List (Str × α)} {k : Str} {v : α} {e : Str × α}
    (h : e ∈ dictInsert d k v) : e ∈ d ∨ e = (k, v) := by
  induction d with
  | nil =>
    simp only [dictInsert, List.mem_singleton] at h
    exact Or.inr h
  | cons hd tl ih =>
    obtain ⟨k', v'⟩ := hd
    simp only [dictInsert] at h
    by_cases hk : k' = k
    · simp only [if_pos hk] at h
      rcases List.mem_cons.mp h with h1 | h1
      · subst hk; exact Or.inr h1
      · exact Or.inl (List.mem_cons_of_mem _ h1)
    · simp only [if_neg hk] at h
      rcases List.mem_cons.mp h with h1 | h1
      · exact Or.inl (h1 ▸ List.mem_cons_self _ _)
      · rcases ih h1 with h2 | h2
        · exact Or.inl (List.mem_cons_of_mem _ h2)
        · exact Or.inr h2

theorem dictLookup_insert_self {α : Type} (d : List (Str × α)) (k : Str) (v : α) :
    dictLookup (dictInsert d k v) k = some v := by
  induction d with
  | nil => simp [dictInsert, dictLookup]
  | cons hd tl ih =>
    obtain ⟨k', v'⟩ := hd
    by_cases hk : k' = k
    · simp [dictInsert, dictLookup, hk]
    · simp [dictInsert, dictLookup, hk, ih]

theorem dictLookup_insert_ne {α : Type} (d : List (Str × α)) {k x : Str} (v : α)
    (h : x ≠ k) : dictLookup (dictInsert d k v) x = dictLookup d x := by
  induction d with
  | nil =>
    have hx : ¬ (k = x) := fun hh => h hh.symm
    simp [dictInsert, dictLookup, hx]
  | cons hd tl ih =>
    obtain ⟨k', v'⟩ := hd
    simp only [dictInsert]
    by_cases hk : k' = k
    · rw [if_pos hk]
      have hx : ¬ (k' = x) := by rw [hk]; exact fun hh => h hh.symm
      simp [dictLookup, hx]
    · rw [if_neg hk]
      by_cases hx : k' = x
      · simp [dictLookup, hx]
      · simp [dictLookup, hx, ih]

theorem dictLookup_mem {α : Type} {d : List (Str × α)} {k : Str} {v : α}
    (h : dictLookup d k = some v) : (k, v) ∈ d := by
  induction d with
  | nil => simp [dictLookup] at h
  | cons hd tl ih =>
    obtain ⟨k', v'⟩ := hd
    simp only [dictLookup] at h
    by_cases hk : k' = k
    · simp only [if_pos hk] at h
      obtain rfl : v' = v := Option.some_injective _ h
      exact hk ▸ List.mem_cons_self _ _
    · simp only [if_neg hk] at h
      exact List.mem_cons_of_mem _ (ih h)

theorem dictLookup_isSome_of_mem {α : Type} {d : List (Str × α)} {k : Str} {v : α}
    (h : (k, v) ∈ d) : (dictLookup d k).isSome := by
  induction d with
  | nil => simp at h
  | cons hd tl ih =>
    obtain ⟨k', v'⟩ := hd
    rcases List.mem_cons.mp h with h1 | h1
    · obtain ⟨rfl, rfl⟩ := Prod.mk.injEq .. ▸ h1
      simp [dictLookup]
    · by_cases hk : k' = k
      · simp [dictLookup, hk]
      · simpa [dictLookup, hk] using ih h1

/-! ## C3 / C8: chassis gate of `_build_unit` -/

/-- C3: a record in which no chassis field was captured never produces a
unit — `_build_unit` falls back to the `'Unknown'` default for a missing
chassis and rejects it, returning `None`, for every collaborator bundle
and every such record. -/
theorem c3_missing_chassis_rejected (m : Mappers) (data : RawData)
    (h : data.chassis = none) : buildUnit m data = none := by
  simp [buildUnit, h]

/-- Witness for C3 on the empty record. -/
theorem c3_missing_chassis_rejected_witness :
    ({} : RawData).chassis = none ∧ buildUnit idMappers {} = none :=
  ⟨rfl, c3_missing_chassis_rejected idMappers {} rfl⟩

/-- C8: a record whose chassis field is present but literally `"Unknown"`
is indistinguishable from a missing chassis — assembly also returns
`None` and no unit is produced. -/
theorem c8_unknown_chassis_rejected (m : Mappers) (data : RawData)
    (h : data.chassis = some "Unknown".data) : buildUnit m data = none := by
  simp [buildUnit, h]

/-- Witness for C8 on a record that explicitly names its chassis
`"Unknown"`. -/
theorem c8_unknown_chassis_rejected_witness :
    buildUnit idMappers { chassis := some "Unknown".data } = none :=
  c8_unknown_chassis_rejected idMappers { chassis := some "Unknown".data } rfl

/-! ## C1: fixed capacity of the critical-slot table -/

/-- The six-slot locations named by the claim: head and every leg-type
location, including the quad-mech front/rear leg variants. -/
def sixSlotLocs : List Str :=
  ["HEAD".data, "LEFT_LEG".data, "RIGHT_LEG".data, "FRONT_LEFT_LEG".data,
   "FRONT_RIGHT_LEG".data, "REAR_LEFT_LEG".data, "REAR_RIGHT_LEG".data]

theorem normalizeSlotList_length (maxSlots : Nat) (l : List (Option Str)) :
    (normalizeSlotList maxSlots l).length = maxSlots := by
  unfold normalizeSlotList
  split
  · rename_i h
    simp only [List.length_take]
    omega
  · rename_i h
    simp only [List.length_append, List.length_replicate]
    omega

theorem slotCounts_capacity (loc : Str) :
    dictGetD slotCounts loc 12 = if loc ∈ sixSlotLocs then 6 else 12 := by
  by_cases h : loc ∈ sixSlotLocs
  · rw [if_pos h]
    fin_cases h <;> decide
  · rw [if_neg h]
    unfold dictGetD
    cases hl : dictLookup slotCounts loc with
    | none => rfl
    | some v =>
      have hm := dictLookup_mem hl
      fin_cases hm <;> first | rfl | exact absurd (by decide) h

theorem buildCriticalSlots_length (m : Mappers) (criticals : List (Str × List Str)) :
    ∀ e ∈ buildCriticalSlots m criticals, e.2.length = dictGetD slotCounts e.1 12 := by
  suffices haux : ∀ (crits : List (Str × List Str)) (acc : List (Str × List (Option Str))),
      (∀ e ∈ acc, e.2.length = dictGetD slotCounts e.1 12) →
      ∀ e ∈ crits.foldl (buildCriticalSlotsStep m) acc, e.2.length = dictGetD slotCounts e.1 12 by
    exact haux criticals [] (by simp)
  intro crits
  induction crits with
  | nil =>
    intro acc hacc
    simpa using hacc
  | cons c cs ih =>
    intro acc hacc
    simp only [List.foldl_cons]
    apply ih
    intro e he
    simp only [buildCriticalSlotsStep] at he
    rcases dictInsert_mem he with h1 | h1
    · exact hacc e h1
    · subst h1
      exact normalizeSlotList_length _ _

/-- C1: every location present in the output critical-slot table carries
a sequence of exactly its canonical capacity; that capacity is 6 for
`HEAD` and every leg-type location (quad front/rear legs included) and 12
for every other mapped or unrecognized location; and for a section's
content the converted list is truncated to the first `capacity` entries
when longer, and is extended with `None` entries when shorter. -/
theorem c1_critical_slot_capacity :
    (∀ (m : Mappers) (criticals : List (Str × List Str)) (loc : Str) (sl : List (Option Str)),
        (loc, sl) ∈ buildCriticalSlots m criticals → sl.length = dictGetD slotCounts loc 12)
    ∧ (∀ loc : Str, dictGetD slotCounts loc 12 = if loc ∈ sixSlotLocs then 6 else 12)
    ∧ (∀ (m : Mappers) (rawLoc : Str) (items : List Str),
        buildCriticalSlots m [(rawLoc, items)] =
          [(m.mapMechLocation rawLoc,
            if (items.map convertSlotItem).length >
                dictGetD slotCounts (m.mapMechLocation rawLoc) 12 then
              (items.map convertSlotItem).take (dictGetD slotCounts (m.mapMechLocation rawLoc) 12)
            else
              items.map convertSlotItem ++
                List.replicate
                  (dictGetD slotCounts (m.mapMechLocation rawLoc) 12 -
                    (items.map convertSlotItem).length) none)]) :=
  ⟨fun m crits loc sl h => buildCriticalSlots_length m crits (loc, sl) h,
   slotCounts_capacity,
   fun _ _ _ => rfl⟩

/-- Witness for C1: an 8-line `HEAD` section is cut to its first 6
entries. -/
theorem c1_critical_slot_capacity_witness :
    ([some "A".data, some "B".data, some "C".data, some "D".data, some "E".data,
      some "F".data] : List (Option Str)).length = dictGetD slotCounts "HEAD".data 12 ∧
    dictGetD slotCounts "HEAD".data 12 = if "HEAD".data ∈ sixSlotLocs then 6 else 12 :=
  ⟨c1_critical_slot_capacity.1 idMappers
      [("HEAD".data, ["A".data, "B".data, "C".data, "D".data, "E".data, "F".data,
        "G".data, "H".data])]
      "HEAD".data
      [some "A".data, some "B".data, some "C".data, some "D".data, some "E".data, some "F".data]
      (by decide),
   c1_critical_slot_capacity.2.1 "HEAD".data⟩

/-! ## C9: empty sections never reach the critical-slot table -/

theorem parseKeyValue_criticals (k v : Str) (d : RawData) :
    (parseKeyValue k v d).criticals = d.criticals := by
  unfold parseKeyValue
  cases hp : pyParseInt v <;> cases hs : splitFirstAux ':' v <;>
    simp only [apply_ite RawData.criticals, ite_self]

theorem flushFluffData_criticals (d : RawData) (f : Option Str) (b : List Str) :
    (flushFluffData d f b).criticals = d.criticals := by
  cases f <;> rfl

theorem flushSectionData_critNonempty {d : RawData} {sec : Option Str} {items : List Str}
    (h : ∀ l its, (l, its) ∈ d.criticals → its ≠ []) :
    ∀ l its, (l, its) ∈ (flushSectionData d sec items).criticals → its ≠ [] := by
  intro l its hm
  unfold flushSectionData at hm
  cases sec with
  | none => exact h l its hm
  | some s =>
    dsimp only at hm
    by_cases hi : items.isEmpty
    · rw [if_pos hi] at hm
      exact h l its hm
    · rw [if_neg hi] at hm
      dsimp only at hm
      rcases dictInsert_mem hm with h1 | h1
      · exact h l its h1
      · rw [Prod.mk.injEq] at h1
        obtain ⟨rfl, rfl⟩ := h1
        intro he
        exact hi (by simp [he])

theorem processLine_criticals_cases (st : PState) (line : Str) :
    (processLine st line).data.criticals = st.data.criticals ∨
    (processLine st line).data.criticals =
      (flushSectionData st.data st.currentSection st.sectionItems).criticals := by
  simp only [processLine]
  repeat' split
  all_goals
    first
      | exact Or.inl rfl
      | exact Or.inl (flushFluffData_criticals _ _ _)
      | exact Or.inl (parseKeyValue_criticals _ _ _)
      | exact Or.inr rfl

theorem processLine_critNonempty {st : PState} (line : Str)
    (h : ∀ l its, (l, its) ∈ st.data.criticals → its ≠ []) :
    ∀ l its, (l, its) ∈ (processLine st line).data.criticals → its ≠ [] := by
  intro l its hm
  rcases processLine_criticals_cases st line with hc | hc
  · rw [hc] at hm
    exact h l its hm
  · rw [hc] at hm
    exact flushSectionData_critNonempty h l its hm

theorem foldl_processLine_critNonempty (lines : List Str) :
    ∀ (st : PState), (∀ l its, (l, its) ∈ st.data.criticals → its ≠ []) →
      ∀ l its, (l, its) ∈ ((lines.foldl processLine st).data).criticals → its ≠ [] := by
  induction lines with
  | nil => intro st h; exact h
  | cons a t ih =>
    intro st h
    exact ih _ (processLine_critNonempty a h)

theorem parseLines_criticals_nonempty (lines : List Str) :
    ∀ l its, (l, its) ∈ (parseLines lines).criticals → its ≠ [] := by
  have hbase := foldl_processLine_critNonempty lines {} (by intro l its hm; simp at hm)
  have h1 := @flushSectionData_critNonempty (lines.foldl processLine {}).data
    (lines.foldl processLine {}).currentSection
    (lines.foldl processLine {}).sectionItems hbase
  unfold parseLines finishParse
  split
  · intro l its hm
    rw [flushFluffData_criticals] at hm
    exact h1 l its hm
  · exact h1

theorem buildCriticalSlots_sourced (m : Mappers) (criticals : List (Str × List Str)) :
    ∀ e ∈ buildCriticalSlots m criticals,
      ∃ rawLoc items, (rawLoc, items) ∈ criticals ∧ m.mapMechLocation rawLoc = e.1 := by
  suffices haux : ∀ (crits : List (Str × List Str)) (acc : List (Str × List (Option Str)))
      (e : Str × List (Option Str)), e ∈ crits.foldl (buildCriticalSlotsStep m) acc →
      e ∈ acc ∨ ∃ rawLoc items, (rawLoc, items) ∈ crits ∧ m.mapMechLocation rawLoc = e.1 by
    intro e he
    rcases haux criticals [] e he with h | h
    · simp at h
    · exact h
  intro crits
  induction crits with
  | nil =>
    intro acc e he
    exact Or.inl (by simpa using he)
  | cons c cs ih =>
    intro acc e he
    simp only [List.foldl_cons] at he
    rcases ih _ e he with h | h
    · simp only [buildCriticalSlotsStep] at h
      rcases dictInsert_mem h with h1 | h1
      · exact Or.inl h1
      · refine Or.inr ⟨c.1, c.2, List.mem_cons_self _ _, ?_⟩
        rw [h1]
    · obtain ⟨rawLoc, items, hmem, hmap⟩ := h
      exact Or.inr ⟨rawLoc, items, List.mem_cons_of_mem _ hmem, hmap⟩

/-- C9: a recognized location header followed by no content lines leaves
the location entirely absent from the critical-slot table — every stored
section is nonempty, a concrete empty `Left Arm` section is missing from
the parsed record while its nonempty `Right Arm` sibling is stored, and
every normalized output location originates from a stored raw section. -/
theorem c9_empty_sections_absent :
    (∀ (lines : List Str) (loc : Str) (items : List Str),
        (loc, items) ∈ (parseLines lines).criticals → items ≠ [])
    ∧ dictLookup (parseLines ["Left Arm:".data, "Right Arm:".data, "Foo Bar".data]).criticals
        "Left Arm".data = none
    ∧ dictLookup (parseLines ["Left Arm:".data, "Right Arm:".data, "Foo Bar".data]).criticals
        "Right Arm".data = some ["Foo Bar".data]
    ∧ (∀ (m : Mappers) (criticals : List (Str × List Str)) (e : Str × List (Option Str)),
        e ∈ buildCriticalSlots m criticals →
          ∃ rawLoc items, (rawLoc, items) ∈ criticals ∧ m.mapMechLocation rawLoc = e.1) :=
  ⟨fun lines => parseLines_criticals_nonempty lines, by decide, by decide,
   buildCriticalSlots_sourced⟩

/-- Witness for C9: the stored `Right Arm` section is nonempty, and a
concrete normalized location is traced back to its raw section. -/
theorem c9_empty_sections_absent_witness :
    (["Foo Bar".data] : List Str) ≠ [] ∧
    (∃ rawLoc items, (rawLoc, items) ∈ [("HEAD".data, ["A".data])] ∧
      idMappers.mapMechLocation rawLoc = ("HEAD".data,
        ([some "A".data, none, none, none, none, none] : List (Option Str))).1) :=
  ⟨c9_empty_sections_absent.1 ["Left Arm:".data, "Right Arm:".data, "Foo Bar".data]
      "Right Arm".data ["Foo Bar".data] (by decide),
   c9_empty_sections_absent.2.2.2 idMappers [("HEAD".data, ["A".data])]
      ("HEAD".data, [some "A".data, none, none, none, none, none]) (by decide)⟩

/-! ## C2: armor allocation front/rear merge -/

theorem armorPass1Step_records (acc : List (Str × ArmorValue)) (e : Str × Int)
    (hfront : armorIsRear (armorLocMap e.1) = false) :
    dictLookup (armorPass1Step acc e) (armorLocMap e.1) = some (ArmorValue.scalar e.2) := by
  simp only [armorPass1Step]
  rw [if_neg (by simp [hfront])]
  exact dictLookup_insert_self _ _ _

theorem armorPass1Step_scalar_stable {acc : List (Str × ArmorValue)} {x : Str}
    (h : ∃ w, dictLookup acc x = some (ArmorValue.scalar w)) (e : Str × Int) :
    ∃ w, dictLookup (armorPass1Step acc e) x = some (ArmorValue.scalar w) := by
  obtain ⟨w, hw⟩ := h
  by_cases hr : armorIsRear (armorLocMap e.1) = true
  · exact ⟨w, by simp only [armorPass1Step]; rw [if_pos hr]; exact hw⟩
  · by_cases hx : x = armorLocMap e.1
    · subst hx
      refine ⟨e.2, ?_⟩
      simp only [armorPass1Step]
      rw [if_neg hr]
      exact dictLookup_insert_self _ _ _
    · refine ⟨w, ?_⟩
      simp only [armorPass1Step]
      rw [if_neg hr, dictLookup_insert_ne _ _ hx]
      exact hw

theorem armorPass1_foldl_scalar_stable (l : List (Str × Int)) :
    ∀ (acc : List (Str × ArmorValue)) (x : Str),
      (∃ w, dictLookup acc x = some (ArmorValue.scalar w)) →
      ∃ w, dictLookup (l.foldl armorPass1Step acc) x = some (ArmorValue.scalar w) := by
  induction l with
  | nil => intro acc x h; exact h
  | cons e t ih =>
    intro acc x h
    exact ih _ x (armorPass1Step_scalar_stable h e)

theorem armorPass1_lookup_scalar {raw : List (Str × Int)} {k : Str} {v : Int}
    (hmem : (k, v) ∈ raw) (hfront : armorIsRear (armorLocMap k) = false) :
    ∃ w, dictLookup (armorPass1 raw) (armorLocMap k) = some (ArmorValue.scalar w) := by
  unfold armorPass1
  suffices haux : ∀ (l : List (Str × Int)) (acc : List (Str × ArmorValue)),
      (k, v) ∈ l → ∃ w, dictLookup (l.foldl armorPass1Step acc) (armorLocMap k) =
        some (ArmorValue.scalar w) by
    exact haux raw [] hmem
  intro l
  induction l with
  | nil => intro acc h; simp at h
  | cons e t ih =>
    intro acc h
    rcases List.mem_cons.mp h with h1 | h1
    · subst h1
      exact armorPass1_foldl_scalar_stable t (armorPass1Step acc (k, v)) (armorLocMap k)
        ⟨v, armorPass1Step_records acc (k, v) hfront⟩
    · exact ih _ h1

theorem armorPass2Step_merges (acc : List (Str × ArmorValue)) (e : Str × Int) {f : Int}
    (hrear : armorIsRear (armorLocMap e.1) = true)
    (hf : dictLookup acc (stripRearLoc (armorLocMap e.1)) = some (ArmorValue.scalar f)) :
    dictLookup (armorPass2Step acc e) (stripRearLoc (armorLocMap e.1)) =
      some (ArmorValue.frontRear f e.2) := by
  simp only [armorPass2Step]
  rw [if_pos hrear, hf]
  exact dictLookup_insert_self _ _ _

theorem armorPass2Step_isSome_stable {acc : List (Str × ArmorValue)} {x : Str}
    (h : (dictLookup acc x).isSome) (e : Str × Int) :
    (dictLookup (armorPass2Step acc e) x).isSome := by
  simp only [armorPass2Step]
  by_cases hr : armorIsRear (armorLocMap e.1) = true
  · rw [if_pos hr]
    cases hsc : dictLookup acc (stripRearLoc (armorLocMap e.1)) with
    | none => exact h
    | some av =>
      cases av with
      | scalar g =>
        by_cases hx : x = stripRearLoc (armorLocMap e.1)
        · subst hx
          show (dictLookup
            (dictInsert acc (stripRearLoc (armorLocMap e.1)) (ArmorValue.frontRear g e.2))
            (stripRearLoc (armorLocMap e.1))).isSome = true
          rw [dictLookup_insert_self]
          rfl
        · show (dictLookup
            (dictInsert acc (stripRearLoc (armorLocMap e.1)) (ArmorValue.frontRear g e.2))
            x).isSome = true
          rw [dictLookup_insert_ne _ _ hx]
          exact h
      | frontRear a b => exact h
  · rw [if_neg hr]
    exact h

theorem armorPass2Step_frontRear_stable {acc : List (Str × ArmorValue)} {x : Str}
    {f r : Int} (h : dictLookup acc x = some (ArmorValue.frontRear f r)) (e : Str × Int) :
    dictLookup (armorPass2Step acc e) x = some (ArmorValue.frontRear f r) := by
  simp only [armorPass2Step]
  by_cases hr : armorIsRear (armorLocMap e.1) = true
  · rw [if_pos hr]
    cases hsc : dictLookup acc (stripRearLoc (armorLocMap e.1)) with
    | none => exact h
    | some av =>
      cases av with
      | scalar g =>
        by_cases hx : x = stripRearLoc (armorLocMap e.1)
        · subst hx
          rw [h] at hsc
          exact absurd hsc (by simp)
        · show dictLookup
            (dictInsert acc (stripRearLoc (armorLocMap e.1)) (ArmorValue.frontRear g e.2))
            x = some (ArmorValue.frontRear f r)
          rw [dictLookup_insert_ne _ _ hx]
          exact h
      | frontRear a b => exact h
  · rw [if_neg hr]
    exact h

theorem armorPass2Step_none_stable {acc : List (Str × ArmorValue)} {x : Str}
    (h : dictLookup acc x = none) (e : Str × Int) :
    dictLookup (armorPass2Step acc e) x = none := by
  simp only [armorPass2Step]
  by_cases hr : armorIsRear (armorLocMap e.1) = true
  · rw [if_pos hr]
    cases hsc : dictLookup acc (stripRearLoc (armorLocMap e.1)) with
    | none => exact h
    | some av =>
      cases av with
      | scalar g =>
        by_cases hx : x = stripRearLoc (armorLocMap e.1)
        · subst hx
          rw [h] at hsc
          exact absurd hsc (by simp)
        · show dictLookup
            (dictInsert acc (stripRearLoc (armorLocMap e.1)) (ArmorValue.frontRear g e.2))
            x = none
          rw [dictLookup_insert_ne _ _ hx]
          exact h
      | frontRear a b => exact h
  · rw [if_neg hr]
    exact h

theorem armorPass2_foldl_frontRear_stable (l : List (Str × Int)) :
    ∀ (acc : List (Str × ArmorValue)) (x : Str) (f r : Int),
      dictLookup acc x = some (ArmorValue.frontRear f r) →
      dictLookup (l.foldl armorPass2Step acc) x = some (ArmorValue.frontRear f r) := by
  induction l with
  | nil => intro acc x f r h; exact h
  | cons e t ih =>
    intro acc x f r h
    exact ih _ x f r (armorPass2Step_frontRear_stable h e)

theorem armorPass2_foldl_none_stable (l : List (Str × Int)) :
    ∀ (acc : List (Str × ArmorValue)) (x : Str),
      dictLookup acc x = none → dictLookup (l.foldl armorPass2Step acc) x = none := by
  induction l with
  | nil => intro acc x h; exact h
  | cons e t ih =>
    intro acc x h
    exact ih _ x (armorPass2Step_none_stable h e)

theorem armorPass2_foldl_isSome_stable (l : List (Str × Int)) :
    ∀ (acc : List (Str × ArmorValue)) (x : Str),
      (dictLookup acc x).isSome → (dictLookup (l.foldl armorPass2Step acc) x).isSome := by
  induction l with
  | nil => intro acc x h; exact h
  | cons e t ih =>
    intro acc x h
    exact ih _ x (armorPass2Step_isSome_stable h e)

theorem armorPass1_keys_not_rear (raw : List (Str × Int)) :
    ∀ e ∈ armorPass1 raw, armorIsRear e.1 = false := by
  unfold armorPass1
  suffices haux : ∀ (l : List (Str × Int)) (acc : List (Str × ArmorValue)),
      (∀ e ∈ acc, armorIsRear e.1 = false) →
      ∀ e ∈ l.foldl armorPass1Step acc, armorIsRear e.1 = false by
    exact haux raw [] (fun e he => absurd he (List.not_mem_nil e))
  intro l
  induction l with
  | nil => intro acc h; exact h
  | cons c cs ih =>
    intro acc h
    simp only [List.foldl_cons]
    apply ih
    intro e he
    simp only [armorPass1Step] at he
    by_cases hr : armorIsRear (armorLocMap c.1) = true
    · rw [if_pos hr] at he
      exact h e he
    · rw [if_neg hr] at he
      rcases dictInsert_mem he with h1 | h1
      · exact h e h1
      · rw [h1]
        simpa using hr

theorem buildArmorAllocation_keys_not_rear (raw : List (Str × Int)) :
    ∀ e ∈ buildArmorAllocation raw, armorIsRear e.1 = false := by
  unfold buildArmorAllocation
  suffices haux : ∀ (l : List (Str × Int)) (acc : List (Str × ArmorValue)),
      (∀ e ∈ acc, armorIsRear e.1 = false) →
      ∀ e ∈ l.foldl armorPass2Step acc, armorIsRear e.1 = false by
    exact haux raw (armorPass1 raw) (armorPass1_keys_not_rear raw)
  intro l
  induction l with
  | nil => intro acc h; exact h
  | cons c cs ih =>
    intro acc h
    simp only [List.foldl_cons]
    apply ih
    intro e he
    simp only [armorPass2Step] at he
    by_cases hr : armorIsRear (armorLocMap c.1) = true
    · rw [if_pos hr] at he
      cases hsc : dictLookup acc (stripRearLoc (armorLocMap c.1)) with
      | none => rw [hsc] at he; exact h e he
      | some av =>
        cases av with
        | scalar g =>
          rw [hsc] at he
          have he2 : e ∈ dictInsert acc (stripRearLoc (armorLocMap c.1))
              (ArmorValue.frontRear g c.2) := he
          rcases dictInsert_mem he2 with h1 | h1
          · exact h e h1
          · rw [h1]
            have hkey := h _ (dictLookup_mem hsc)
            simpa using hkey
        | frontRear a b => rw [hsc] at he; exact h e he
    · rw [if_neg hr] at he
      exact h e he

theorem armorPass1_rear_key_absent (raw : List (Str × Int)) (x : Str)
    (hx : armorIsRear x = true) : dictLookup (armorPass1 raw) x = none := by
  cases hl : dictLookup (armorPass1 raw) x with
  | none => rfl
  | some w =>
    have hkey : armorIsRear x = false := armorPass1_keys_not_rear raw (x, w) (dictLookup_mem hl)
    rw [hx] at hkey
    exact absurd hkey (by decide)

/-- C2: the armor allocation builder records every non-rear entry as a
scalar in its first pass and keeps that location present in the final
allocation; a rear entry finding a scalar at its front location at its
turn of the second pass leaves the final allocation holding the exact
`{front, rear}` composite; a rear entry whose front location was never
recorded leaves both the front name and the rear-flavoured name absent —
its value never appears; and no rear-flavoured location name is ever a
key of the output. -/
theorem c2_armor_allocation :
    (∀ (raw : List (Str × Int)) (k : Str) (v : Int), (k, v) ∈ raw →
        armorIsRear (armorLocMap k) = false →
        (∃ w, dictLookup (armorPass1 raw) (armorLocMap k) = some (ArmorValue.scalar w)) ∧
        (dictLookup (buildArmorAllocation raw) (armorLocMap k)).isSome)
    ∧ (∀ (raw pre post : List (Str × Int)) (k : Str) (v f : Int),
        raw = pre ++ (k, v) :: post → armorIsRear (armorLocMap k) = true →
        dictLookup (pre.foldl armorPass2Step (armorPass1 raw)) (stripRearLoc (armorLocMap k)) =
          some (ArmorValue.scalar f) →
        dictLookup (buildArmorAllocation raw) (stripRearLoc (armorLocMap k)) =
          some (ArmorValue.frontRear f v))
    ∧ (∀ (raw : List (Str × Int)) (k : Str) (v : Int), (k, v) ∈ raw →
        armorIsRear (armorLocMap k) = true →
        dictLookup (armorPass1 raw) (stripRearLoc (armorLocMap k)) = none →
        dictLookup (buildArmorAllocation raw) (stripRearLoc (armorLocMap k)) = none ∧
        dictLookup (buildArmorAllocation raw) (armorLocMap k) = none)
    ∧ (∀ (raw : List (Str × Int)) (e : Str × ArmorValue),
        e ∈ buildArmorAllocation raw → armorIsRear e.1 = false) := by
  refine ⟨?_, ?_, ?_, ?_⟩
  · intro raw k v hmem hfront
    obtain ⟨w, hw⟩ := armorPass1_lookup_scalar hmem hfront
    refine ⟨⟨w, hw⟩, ?_⟩
    unfold buildArmorAllocation
    exact armorPass2_foldl_isSome_stable raw (armorPass1 raw) (armorLocMap k)
      (by rw [hw]; rfl)
  · intro raw pre post k v f hsplit hrear hfrontScalar
    unfold buildArmorAllocation
    rw [hsplit, List.foldl_append, List.foldl_cons, ← hsplit]
    exact armorPass2_foldl_frontRear_stable post
      (armorPass2Step (pre.foldl armorPass2Step (armorPass1 raw)) (k, v))
      (stripRearLoc (armorLocMap k)) f v
      (armorPass2Step_merges (pre.foldl armorPass2Step (armorPass1 raw)) (k, v)
        hrear hfrontScalar)
  · intro raw k v hmem hrear hnone
    constructor
    · unfold buildArmorAllocation
      exact armorPass2_foldl_none_stable raw (armorPass1 raw) _ hnone
    · unfold buildArmorAllocation
      exact armorPass2_foldl_none_stable raw (armorPass1 raw) _
        (armorPass1_rear_key_absent raw _ hrear)
  · exact fun raw e he => buildArmorAllocation_keys_not_rear raw e he

/-- Witness for C2 on the map `{CT: 10, RTC: 3, RTL: 5}`: the front
`CENTER_TORSO` entry is recorded, the rear `RTC` entry merges into the
composite `{front: 10, rear: 3}`, and the orphan rear `RTL` entry is
dropped with no trace. -/
theorem c2_armor_allocation_witness :
    ((∃ w, dictLookup (armorPass1 [("CT".data, 10), ("RTC".data, 3), ("RTL".data, 5)])
        (armorLocMap "CT".data) = some (ArmorValue.scalar w)) ∧
      (dictLookup (buildArmorAllocation [("CT".data, 10), ("RTC".data, 3), ("RTL".data, 5)])
        (armorLocMap "CT".data)).isSome) ∧
    dictLookup (buildArmorAllocation [("CT".data, 10), ("RTC".data, 3), ("RTL".data, 5)])
      (stripRearLoc (armorLocMap "RTC".data)) = some (ArmorValue.frontRear 10 3) ∧
    (dictLookup (buildArmorAllocation [("CT".data, 10), ("RTC".data, 3), ("RTL".data, 5)])
        (stripRearLoc (armorLocMap "RTL".data)) = none ∧
      dictLookup (buildArmorAllocation [("CT".data, 10), ("RTC".data, 3), ("RTL".data, 5)])
        (armorLocMap "RTL".data) = none) :=
  ⟨c2_armor_allocation.1 [("CT".data, 10), ("RTC".data, 3), ("RTL".data, 5)]
      "CT".data 10 (by decide) (by decide),
   c2_armor_allocation.2.1 [("CT".data, 10), ("RTC".data, 3), ("RTL".data, 5)]
      [("CT".data, 10)] [("RTL".data, 5)] "RTC".data 3 10 rfl (by decide) (by decide),
   c2_armor_allocation.2.2.1 [("CT".data, 10), ("RTC".data, 3), ("RTL".data, 5)]
      "RTL".data 5 (by decide) (by decide) (by decide)⟩

/-! ## C4: rear-mount marker detection -/

theorem pyLowerChar_ne_R (c : Char) : ¬ pyLowerChar c = 'R' := by
  unfold pyLowerChar
  cases hf : lowerTable.find? (fun p => p.1 = c) with
  | none =>
    have hr := List.find?_eq_none.mp hf ('R', 'r') (by decide)
    simp only [decide_eq_true_eq] at hr
    exact fun h => hr (show 'R' = c from (show c = 'R' from h).symm)
  | some p =>
    have hp : p ∈ lowerTable := List.mem_of_find?_eq_some hf
    have hv : ∀ q ∈ lowerTable, ¬ q.2 = 'R' := by decide
    exact hv p hp

theorem startsWith_R_lower_false (xs : Str) (l : Str) :
    startsWithL ('R' :: xs) (pyLower l) = false := by
  cases l with
  | nil => rfl
  | cons c t =>
    show startsWithL ('R' :: xs) (pyLowerChar c :: pyLower t) = false
    have hne : ¬ ('R' = pyLowerChar c) := fun h => pyLowerChar_ne_R c h.symm
    simp [startsWithL, hne]

theorem containsSub_rear_lower (l : Str) :
    containsSub ['(', 'R', 'e', 'a', 'r', ')'] (pyLower l) = false := by
  induction l with
  | nil => rfl
  | cons c t ih =>
    show containsSub ['(', 'R', 'e', 'a', 'r', ')'] (pyLowerChar c :: pyLower t) = false
    simp only [containsSub]
    rw [ih, Bool.or_false]
    simp only [startsWithL]
    rw [startsWith_R_lower_false ['e', 'a', 'r', ')'] t, Bool.and_false]

theorem isRearName_eq (name : Str) : isRearName name = containsSub "(R)".data name := by
  unfold isRearName
  rw [show "(Rear)".data = ['(', 'R', 'e', 'a', 'r', ')'] from rfl]
  rw [containsSub_rear_lower, Bool.or_false]

/-- C4: the rear-mount check of `_build_equipment_list` is broken for the
`(Rear)` spelling — testing the mixed-case literal `'(Rear)'` against the
lowercased name is identically false, so rear detection degenerates to
the literal `(R)` test alone; in particular `"Medium Laser(Rear)"` is not
flagged and its marker is not stripped, while the `"Medium Laser(R)"`
case behaves as the claim describes. -/
theorem c4_rear_marker_code_bug :
    (∀ name : Str, containsSub "(Rear)".data (pyLower name) = false)
    ∧ (∀ name : Str, isRearName name = containsSub "(R)".data name)
    ∧ isRearName "Medium Laser(Rear)".data = false
    ∧ cleanWeaponName "Medium Laser(Rear)".data = "Medium Laser(Rear)".data
    ∧ (∀ m : Mappers, buildEquipmentList m [("Medium Laser(R)".data, "Left Arm".data)] =
        [{ id := m.normalizeEquipmentId "Medium Laser".data,
           location := m.mapMechLocation "Left Arm".data,
           slots := none, isRearMounted := some true, linkedAmmo := none }]) := by
  refine ⟨?_, isRearName_eq, by decide, by decide, ?_⟩
  · intro name
    rw [show "(Rear)".data = ['(', 'R', 'e', 'a', 'r', ')'] from rfl]
    exact containsSub_rear_lower name
  · intro m
    have h1 : isRearName "Medium Laser(R)".data = true := by decide
    have h2 : cleanWeaponName "Medium Laser(R)".data = "Medium Laser".data := by decide
    simp [buildEquipmentList, h1, h2]

/-! ## C5: colon-terminated lines and key-value dispatch -/

/-- C5 counterexample: the line `"Rules Level:"` ends with a colon,
contains no other colon, and its pre-colon text is no location name, yet
the scanner does not treat it as a key-value pair: the record is left
unchanged, although a key-value dispatch of the very same line would
have recorded `rules_level = ""`. -/
theorem c5_kv_dispatch_counterexample :
    (processLine {} "Rules Level:".data).data = ({} : RawData) ∧
    splitFirstAux ':' "Rules Level:".data = some ("Rules Level".data, []) ∧
    pyKeyNorm "Rules Level".data = "rules_level".data ∧
    parseKeyValue "rules_level".data [] ({} : RawData) ≠ ({} : RawData) := by
  refine ⟨by decide, by decide, by decide, by decide⟩

/-- C5 (amended): outside fluff mode, a line ending with `:` and
containing no other colon whose pre-colon text is neither a fluff-field
header nor a recognized location name is consumed by the section-header
branch without any key-value dispatch: its only effect is flushing the
previous section's accumulated lines, with all other parser state
unchanged. -/
theorem c5_colon_terminated_consumed (st : PState) (line : Str)
    (h1 : isBlankOrComment (pyTrim line) = false)
    (h2 : findFluffField (pyTrim line) = none)
    (h3 : st.inFluff = false)
    (h4 : endsColonNoOther (pyTrim line) = true)
    (h5 : isRecognizedSection (pyTrim line).dropLast = false) :
    processLine st line =
      { st with data := flushSectionData st.data st.currentSection st.sectionItems } := by
  simp [processLine, h1, h2, h3, h4, h5]

/-- Witness for C5 (amended) on the line `"Rules Level:"` from a fresh
parser state. -/
theorem c5_colon_terminated_consumed_witness :
    processLine {} "Rules Level:".data =
      { ({} : PState) with
          data := flushSectionData ({} : PState).data ({} : PState).currentSection
            ({} : PState).sectionItems } :=
  c5_colon_terminated_consumed {} "Rules Level:".data (by decide) (by decide) rfl
    (by decide) (by decide)

/-! ## C6: engine string sub-parser -/

theorem tryParenGroup_sound {cs q : Str} (h : tryParenGroup cs = some q) :
    cs = q ++ [')'] ∧ q ≠ [] ∧ q.contains ')' = false := by
  unfold tryParenGroup at h
  cases hrev : cs.reverse with
  | nil =>
    rw [hrev] at h
    exact absurd h (by simp)
  | cons c revq =>
    rw [hrev] at h
    have h2 : (if c = ')' ∧ revq ≠ [] ∧ (revq.reverse).contains ')' = false then
        some revq.reverse else none) = some q := h
    by_cases hc : c = ')' ∧ revq ≠ [] ∧ (revq.reverse).contains ')' = false
    · rw [if_pos hc] at h2
      have hq := Option.some_injective _ h2
      obtain ⟨hc1, hc2, hc3⟩ := hc
      subst hc1
      refine ⟨?_, ?_, ?_⟩
      · have hcs : cs = cs.reverse.reverse := (List.reverse_reverse cs).symm
        rw [hcs, hrev, List.reverse_cons, hq]
      · rw [← hq]
        simpa using hc2
      · rw [← hq]
        exact hc3
    · rw [if_neg hc] at h2
      exact absurd h2 (by simp)

theorem findParen_sound : ∀ (rest mid q : Str), findParen rest = some (mid, q) →
    rest = mid ++ '(' :: (q ++ [')']) ∧ q ≠ [] ∧ q.contains ')' = false := by
  intro rest
  induction rest with
  | nil =>
    intro mid q h
    simp [findParen] at h
  | cons c t ih =>
    intro mid q h
    unfold findParen at h
    by_cases hc : c = '('
    · rw [if_pos hc] at h
      cases htp : tryParenGroup t with
      | some q0 =>
        rw [htp] at h
        have h2 := Option.some_injective _ h
        rw [Prod.mk.injEq] at h2
        obtain ⟨hm, hq⟩ := h2
        subst hm
        subst hq
        obtain ⟨hcs, hne, hnc⟩ := tryParenGroup_sound htp
        subst hc
        refine ⟨?_, hne, hnc⟩
        rw [hcs]
        simp
      | none =>
        rw [htp] at h
        cases hft : findParen t with
        | none =>
          rw [hft] at h
          exact absurd h (by simp)
        | some p =>
          rw [hft] at h
          obtain ⟨m1, q1⟩ := p
          have h2 := Option.some_injective _ h
          rw [Prod.mk.injEq] at h2
          obtain ⟨hm, hq⟩ := h2
          subst hm
          subst hq
          obtain ⟨hrest, hne, hnc⟩ := ih m1 q1 hft
          refine ⟨?_, hne, hnc⟩
          rw [hrest]
          rfl
    · rw [if_neg hc] at h
      cases hft : findParen t with
      | none =>
        rw [hft] at h
        exact absurd h (by simp)
      | some p =>
        rw [hft] at h
        obtain ⟨m1, q1⟩ := p
        have h2 := Option.some_injective _ h
        rw [Prod.mk.injEq] at h2
        obtain ⟨hm, hq⟩ := h2
        subst hm
        subst hq
        obtain ⟨hrest, hne, hnc⟩ := ih m1 q1 hft
        refine ⟨?_, hne, hnc⟩
        rw [hrest]
        rfl

/-- C6: the engine sub-parser implements
`(\d+)\s*(.*?)(?:\(([^)]+)\))?$` — `"300 Fusion Engine(IS)"` yields
rating 300 and type `"Fusion Engine(IS)"`; a value with no leading
digits fails the pattern and yields rating 0 with the raw string as the
type; a successful lazy paren scan decomposes the post-rating text as
`mid ++ "(" ++ qualifier ++ ")"` with a nonempty, `)`-free qualifier
that is re-appended to the stripped type words; and with no qualifier
the stripped remainder is the type. -/
theorem c6_engine_subparser :
    parseEngine "300 Fusion Engine(IS)".data =
      { rating := 300, type := "Fusion Engine(IS)".data }
    ∧ (∀ value : Str, (value.takeWhile isDigitC).isEmpty = true →
        parseEngine value = { rating := 0, type := value })
    ∧ (∀ rest mid q : Str, findParen rest = some (mid, q) →
        rest = mid ++ '(' :: (q ++ [')']) ∧ q ≠ [] ∧ q.contains ')' = false)
    ∧ (∀ value mid q : Str, (value.takeWhile isDigitC).isEmpty = false →
        findParen ((value.dropWhile isDigitC).dropWhile pyIsSpace) = some (mid, q) →
        parseEngine value = { rating := (digitsToNat (value.takeWhile isDigitC) : Int),
                              type := pyTrim mid ++ '(' :: (q ++ [')']) })
    ∧ (∀ value : Str, (value.takeWhile isDigitC).isEmpty = false →
        findParen ((value.dropWhile isDigitC).dropWhile pyIsSpace) = none →
        parseEngine value =
          { rating := (digitsToNat (value.takeWhile isDigitC) : Int),
            type := pyTrim ((value.dropWhile isDigitC).dropWhile pyIsSpace) }) := by
  refine ⟨by decide, ?_, findParen_sound, ?_, ?_⟩
  · intro value h
    simp only [parseEngine]
    rw [if_pos h]
  · intro value mid q h1 h2
    simp only [parseEngine]
    rw [if_neg (by simp [h1]), h2]
  · intro value h1 h2
    simp only [parseEngine]
    rw [if_neg (by simp [h1]), h2]

/-- Witness for C6: a digit-free value falls back to the raw string, the
example decomposition of `"Fusion Engine(IS)"` is sound, and concrete
values with and without a parenthetical qualifier parse accordingly. -/
theorem c6_engine_subparser_witness :
    parseEngine "Fusion".data = { rating := 0, type := "Fusion".data } ∧
    ("Fusion Engine(IS)".data = "Fusion Engine".data ++ '(' :: ("IS".data ++ [')']) ∧
      "IS".data ≠ [] ∧ ("IS".data).contains ')' = false) ∧
    parseEngine "300 XL(Clan)".data =
      { rating := (digitsToNat ("300 XL(Clan)".data.takeWhile isDigitC) : Int),
        type := pyTrim "XL".data ++ '(' :: ("Clan".data ++ [')']) } ∧
    parseEngine "250 ICE".data =
      { rating := (digitsToNat ("250 ICE".data.takeWhile isDigitC) : Int),
        type := pyTrim (("250 ICE".data.dropWhile isDigitC).dropWhile pyIsSpace) } :=
  ⟨c6_engine_subparser.2.1 "Fusion".data (by decide),
   c6_engine_subparser.2.2.1 "Fusion Engine(IS)".data "Fusion Engine".data "IS".data (by decide),
   c6_engine_subparser.2.2.2.1 "300 XL(Clan)".data "XL".data "Clan".data (by decide) (by decide),
   c6_engine_subparser.2.2.2.2 "250 ICE".data (by decide) (by decide)⟩

/-! ## C7: when the assembled unit carries a fluff block -/

/-- C7 counterexample: a record that captured manufacturer data but no
narrative field assembles into a unit with no fluff block — manufacturer
data alone does not produce one. -/
theorem c7_fluff_presence_counterexample :
    Option.map SerializedUnit.fluff
      (buildUnit idMappers
        { chassis := some "Atlas".data, manufacturer := some "Defiance".data }) = some none ∧
    ({ chassis := some "Atlas".data, manufacturer := some "Defiance".data } : RawData).manufacturer
      ≠ none :=
  ⟨by decide, by decide⟩

/-- C7 (amended): a successfully assembled unit carries a fluff block
exactly when at least one narrative field was captured; manufacturer
data is copied into the block only in that case and alone never creates
one. -/
theorem c7_fluff_presence (m : Mappers) (d : RawData)
    (h : (buildUnit m d).isSome = true) :
    (((buildUnit m d).bind SerializedUnit.fluff).isSome = true ↔ d.fluff ≠ []) := by
  simp only [buildUnit] at h ⊢
  by_cases hc : d.chassis.getD "Unknown".data = "Unknown".data
  · rw [if_pos hc] at h
    exact absurd h (by simp)
  · rw [if_neg hc] at h ⊢
    rw [Option.some_bind]
    dsimp only
    by_cases hf : d.fluff.isEmpty = true
    · rw [if_pos hf]
      have hnil : d.fluff = [] := by simpa using hf
      simp [hnil]
    · rw [if_neg hf]
      have hne : d.fluff ≠ [] := by simpa using hf
      simp [hne]

/-- Witness for C7 (amended): a record with an overview narrative field
yields a unit whose fluff block is present. -/
theorem c7_fluff_presence_witness :
    ((buildUnit idMappers
        { chassis := some "Atlas".data,
          fluff := [("overview".data, "Ov".data)] }).bind SerializedUnit.fluff).isSome = true ↔
      ({ chassis := some "Atlas".data,
         fluff := [("overview".data, "Ov".data)] } : RawData).fluff ≠ [] :=
  c7_fluff_presence idMappers
    { chassis := some "Atlas".data, fluff := [("overview".data, "Ov".data)] } (by decide)

/-! ## C10: narrative fields recognized but not emitted -/

/-- C10: `variants`, `notable_pilots` and `notes` are recognized fluff
headers and are accumulated into the raw record's fluff map, yet the
assembled unit's fluff block never carries them: it is built from the
`overview`, `capabilities`, `history` and `deployment` narrative fields
plus the manufacturer data only, and its `variants`/`notableUnits`
slots are always absent. -/
theorem c10_narrative_fields_dropped :
    ("variants".data ∈ fluffFields ∧ "notable_pilots".data ∈ fluffFields ∧
      "notes".data ∈ fluffFields)
    ∧ dictLookup (parseLines ["Variants:Alt configs exist.".data]).fluff "variants".data =
        some "Alt configs exist.".data
    ∧ dictLookup (parseLines ["notable_pilots:Jane Doe".data]).fluff "notable_pilots".data =
        some "Jane Doe".data
    ∧ dictLookup (parseLines ["Notes:Something".data]).fluff "notes".data =
        some "Something".data
    ∧ (∀ (m : Mappers) (d : RawData) (f : SerializedFluff),
        (buildUnit m d).bind SerializedUnit.fluff = some f →
        f.variants = none ∧ f.notableUnits = none ∧
        f.overview = dictLookup d.fluff "overview".data ∧
        f.capabilities = dictLookup d.fluff "capabilities".data ∧
        f.history = dictLookup d.fluff "history".data ∧
        f.deployment = dictLookup d.fluff "deployment".data ∧
        f.manufacturer = d.manufacturer ∧
        f.primaryFactory = d.primaryFactory) := by
  refine ⟨by decide, by decide, by decide, by decide, ?_⟩
  intro m d f h
  simp only [buildUnit] at h
  by_cases hc : d.chassis.getD "Unknown".data = "Unknown".data
  · rw [if_pos hc] at h
    exact absurd h (by simp)
  · rw [if_neg hc] at h
    rw [Option.some_bind] at h
    dsimp only at h
    by_cases hf : d.fluff.isEmpty = true
    · rw [if_pos hf] at h
      exact absurd h (by simp)
    · rw [if_neg hf] at h
      have h2 := Option.some_injective _ h
      subst h2
      exact ⟨rfl, rfl, rfl, rfl, rfl, rfl, rfl, rfl⟩

/-- A concrete raw record carrying a `variants` and an `overview`
narrative, used to instantiate C10. -/
def rawWithVariants : RawData :=
  { chassis := some "Atlas".data,
    fluff := [("variants".data, "v".data), ("overview".data, "o".data)] }

/-- The fluff block the assembler produces for `rawWithVariants`. -/
def fluffOnlyOverview : SerializedFluff := { overview := some "o".data }

/-- Witness for C10: a record carrying both a `variants` narrative and an
`overview` narrative yields a fluff block holding only the overview. -/
theorem c10_narrative_fields_dropped_witness :
    fluffOnlyOverview.variants = none ∧
    fluffOnlyOverview.notableUnits = none ∧
    fluffOnlyOverview.overview = dictLookup rawWithVariants.fluff "overview".data ∧
    fluffOnlyOverview.capabilities = dictLookup rawWithVariants.fluff "capabilities".data ∧
    fluffOnlyOverview.history = dictLookup rawWithVariants.fluff "history".data ∧
    fluffOnlyOverview.deployment = dictLookup rawWithVariants.fluff "deployment".data ∧
    fluffOnlyOverview.manufacturer = rawWithVariants.manufacturer ∧
    fluffOnlyOverview.primaryFactory = rawWithVariants.primaryFactory :=
  c10_narrative_fields_dropped.2.2.2.2 idMappers rawWithVariants fluffOnlyOverview (by decide)

end MTF
